import Mathlib

set_option maxRecDepth 4000

/-!
Verification development for the fuzztruction-net scheduler.

Each Rust function relevant to the checked properties is embedded as an
executable Lean definition, translated from the source files under
scheduler/src (config.rs, fuzzer/campaign.rs, fuzzer/worker_impl/common.rs,
fuzzer/worker_impl/phases/add.rs).  Code of external crates that the
scheduler calls into (Rust std, yaml values, the shared mutation-cache
crate, the sink bitmap) is modelled at the boundary, as documented on the
corresponding definitions.
-/

namespace Fuzztruction

/-! ### Duration parsing (config.rs, FromStr for FromStrDuration)

The Rust code matches the regex ([0-9]+)(s|m|h|d|a) against the input with
Regex::captures, which searches for the leftmost match anywhere in the
string (it is not anchored).  A match therefore starts at the first digit
whose maximal digit run is immediately followed by one of the five suffix
letters; backtracking inside [0-9]+ cannot help because a shorter digit run
is followed by a digit, which is not a suffix letter. -/

def durSuffixes : List Char := ['s', 'm', 'h', 'd', 'a']

/-- Numeric value of a digit string, as u64::from_str would produce it. -/
def natOfDigits (l : List Char) : Nat :=
  l.foldl (fun acc c => acc * 10 + (c.toNat - 48)) 0

/-- Leftmost match of ([0-9]+)(s|m|h|d|a): returns the digit group and the
suffix character, scanning start positions left to right. -/
def findDurMatch : List Char → Option (List Char × Char)
  | [] => none
  | c :: rest =>
    if c.isDigit then
      let digits := (c :: rest).takeWhile Char.isDigit
      match (c :: rest).dropWhile Char.isDigit with
      | t :: _ => if durSuffixes.contains t then some (digits, t) else findDurMatch rest
      | [] => findDurMatch rest
    else findDurMatch rest

/-- Embedding of FromStr for FromStrDuration (config.rs).  The result is the
duration in milliseconds (the code builds Duration::from_millis).  The empty
suffix arm of the Rust match is dead: the regex always captures one suffix
letter. -/
def fromStrDuration (s : String) : Except String Nat :=
  match findDurMatch s.data with
  | none => .error ("Invalid duration format (" ++ s ++ ")!")
  | some (digits, suffix) =>
    let amount := natOfDigits digits
    let millis :=
      if suffix = 's' then amount * 1000
      else if suffix = 'm' then amount * 1000 * 60
      else if suffix = 'h' then amount * 1000 * 3600
      else if suffix = 'd' then amount * 1000 * 3600 * 24
      else amount * 1000 * 3600 * 24 * 365
    .ok millis

/-! ### server-ready-on parsing (config.rs, TryFromYaml for ServerReadySignalKind)

The Rust code lowercases the string and runs the unanchored regex
(bind|listen)(\(([1-9]+[0-9]*)\))? via Regex::captures(..).unwrap().
The leftmost occurrence of bind or listen wins; at that position the
optional count group matches greedily if and only if an opening parenthesis
is followed by a digit run starting with 1..9 and a closing parenthesis.
If no keyword occurs anywhere the unwrap panics, modelled as none. -/

/-- ASCII-relevant embedding of Rust str::to_lowercase, as a character list
(the inputs of interest are ASCII). -/
def lowerChars (s : String) : List Char := s.data.map Char.toLower

inductive ServerReadySignalKind where
  | bind (n : Nat)
  | listen (n : Nat)
deriving DecidableEq, Repr

/-- Match of the optional group \(([1-9]+[0-9]*)\) directly at the head of
the character list; returns the parsed count on success. -/
def parseReadyCount : List Char → Option Nat
  | '(' :: c :: rest =>
    if '1' ≤ c ∧ c ≤ '9' then
      let digits := (c :: rest).takeWhile Char.isDigit
      match (c :: rest).dropWhile Char.isDigit with
      | ')' :: _ => some (natOfDigits digits)
      | _ => none
    else none
  | _ => none

/-- Leftmost-match scan for (bind|listen) with the optional count group. -/
def findServerReady : List Char → Option ServerReadySignalKind
  | [] => none
  | l@(_ :: rest) =>
    if ("bind".data).isPrefixOf l then
      match parseReadyCount (l.drop 4) with
      | some n => some (.bind n)
      | none => some (.bind 0)
    else if ("listen".data).isPrefixOf l then
      match parseReadyCount (l.drop 6) with
      | some n => some (.listen n)
      | none => some (.listen 0)
    else findServerReady rest

/-- Embedding of TryFromYaml for ServerReadySignalKind, applied to the string
attribute value.  A none result models the panic of captures(..).unwrap()
when the regex matches nowhere. -/
def serverReadyFromStr (s : String) : Option ServerReadySignalKind :=
  findServerReady (lowerChars s)

/-! ### Add-phase mutator iteration budget (phases/add.rs, add_phase_prepare_mutations) -/

/-- Embedding of the iteration budget computed in add_phase_prepare_mutations
for a candidate whose mutation mask has the given length. -/
def addPhaseIterations (mskLen : Nat) : Nat :=
  if mskLen ≤ 32 then 32 * mskLen
  else if mskLen ≤ 128 then 16 * mskLen
  else 16 * 128

/-! ### Queue-entry tracing (worker_impl/common.rs, trace_queue_entry)

The per-entry stats record carries the optional trace and the
tracing_in_progress flag.  The fallible part between marking the flag and
inspecting the result (load_queue_entry_mutations and common_trace, both
behind the agent boundary) is a parameter: an ok value is the covered-ID
set, an error is surfaced to the caller. -/

structure QueueEntryStats where
  trace : Option (List Nat)
  tracingInProgress : Bool
deriving DecidableEq, Repr

/-- Modelled from the spec: QueueEntryStats::set_trace (fuzzer/queue.rs is not
part of the sources) stores the trace and clears the tracing_in_progress
flag, following step (4) of the tracing-coordination protocol. -/
def setTrace (st : QueueEntryStats) (t : List Nat) : QueueEntryStats :=
  { st with trace := some t, tracingInProgress := false }

/-- Embedding of FuzzingWorker::trace_queue_entry.  Returns the Rust result
together with the queue entry's stats after the call.  The error value keeps
the message of the underlying tracing failure (the Rust code only wraps it
in a context string). -/
def traceQueueEntry (st : QueueEntryStats) (traceResult : Except String (List Nat)) :
    Except String (Option (List Nat)) × QueueEntryStats :=
  match st.trace with
  | some t => (.ok (some t), st)
  | none =>
    if st.tracingInProgress then
      (.ok none, st)
    else
      let st1 := { st with tracingInProgress := true }
      match traceResult with
      | .ok tr => (.ok (some tr), setTrace st1 tr)
      | .error e => (.error e, st1)

/-! ### Worker restart policy (fuzzer/campaign.rs, restart_crashed_worker)

A worker proxy is modelled as a pair of its uid and its liveness; the
campaign state relevant to the restart policy is the restarted-worker
registry.  MAX_WORKER_RESTART_CNT lives in constants.rs, outside the
provided sources, so it is a parameter maxCnt of the embedding;
spawn_additional_worker always succeeds (agent spawning is behind the
process boundary) and is accounted for by a spawn counter. -/

/-- Loop body of restart_crashed_worker: walk the crashed list; while the
registry does not exceed maxCnt, push the uid and spawn a replacement;
when the registry length exceeds maxCnt, extend the registry with the whole
crashed list and return.  Returns the new registry and the number of
replacement workers spawned. -/
def restartLoop (maxCnt : Nat) (crashed : List Nat) :
    List Nat → List Nat → List Nat × Nat
  | [], restarted => (restarted, 0)
  | uid :: pending, restarted =>
    if restarted.length > maxCnt then
      (restarted ++ crashed, 0)
    else
      let res := restartLoop maxCnt crashed pending (restarted ++ [uid])
      (res.1, res.2 + 1)

/-- Embedding of FuzzingCampaign::restart_crashed_worker: collect the dead
workers that are not yet in the restarted registry, then run the restart
loop over them. -/
def restartCrashedWorker (maxCnt : Nat) (workers : List (Nat × Bool))
    (restarted : List Nat) : List Nat × Nat :=
  let crashed := (workers.filter fun w => !w.2 && !(restarted.contains w.1)).map Prod.fst
  restartLoop maxCnt crashed crashed restarted

/-- A campaign lifetime for the restart policy: a sequence of
restart_crashed_worker calls, each observing an arbitrary snapshot of the
worker list, threading the restarted registry through.  Returns the final
registry and the total number of replacement workers spawned. -/
def campaignRestarts (maxCnt : Nat) :
    List (List (Nat × Bool)) → List Nat → List Nat × Nat
  | [], restarted => (restarted, 0)
  | ws :: rest, restarted =>
    let r1 := restartCrashedWorker maxCnt ws restarted
    let r2 := campaignRestarts maxCnt rest r1.1
    (r2.1, r1.2 + r2.2)

/-! ### Virgin coverage maps (worker_impl/common.rs, check_virgin_maps)

Bitmaps are byte lists.  Bitmap::has_new_bit and Bitmap::copy_from live in
sink_bitmap.rs, which is not among the provided sources, and are therefore
modelled from the spec. -/

inductive BitmapStatus where
  | noNew
  | newHit
  | newEdge
deriving DecidableEq, Repr

/-- Modelled from the spec: the byte-wise kernel of Bitmap::has_new_bit
(sink_bitmap.rs is not part of the sources).  For every non-zero
coverage[i] AND virgin[i] the shared bits are cleared from virgin[i];
the flags record whether any bits were cleared and whether any virgin byte
transitioned away from 0xFF on this call. -/
def hasNewBitGo : List Nat → List Nat → List Nat × Bool × Bool
  | [], vs => (vs, false, false)
  | _, [] => ([], false, false)
  | c :: cs, v :: vs =>
    let r := hasNewBitGo cs vs
    let v' := v ^^^ (v &&& c)
    (v' :: r.1, (r.2.1 || !(v' == v)), (r.2.2 || (v == 255 && !(v' == 255))))

/-- Modelled from the spec: Bitmap::has_new_bit reports NewEdge iff some
virgin byte moved from 0xFF to non-0xFF, otherwise NewHit iff any bits were
cleared, otherwise NoNew, and returns the updated virgin map. -/
def hasNewBit (cov virgin : List Nat) : BitmapStatus × List Nat :=
  let r := hasNewBitGo cov virgin
  (if r.2.2 then .newEdge else if r.2.1 then .newHit else .noNew, r.1)

/-- Embedding of FuzzingWorker::check_virgin_maps: test against the local
virgin map; only when that reports new coverage, consult (and update) the
global virgin map and re-synchronise the local map from it (copy_from is a
plain copy).  Returns the reported status, the local map and the global map
after the call. -/
def checkVirginMaps (cov loc glob : List Nat) :
    BitmapStatus × List Nat × List Nat :=
  let first := hasNewBit cov loc
  match first.1 with
  | .newEdge | .newHit =>
    let g := hasNewBit cov glob
    (g.1, g.2, g.2)
  | .noNew => (first.1, first.2, glob)

/-! ### Execution-time averaging (worker_impl/common.rs, report_execution_duration)

Rust std Duration is a pair of whole seconds and a nanosecond remainder
below 10^9.  The arithmetic used by report_execution_duration is Duration
multiplication by u32, addition, and division by u32, embedded below with
the algorithms of the Rust standard library (overflow panics excluded:
the values are far from u64 range).  AVG_EXECUTION_TIME_STABILIZATION_VALUE
lives in constants.rs, outside the provided sources, so it is a parameter. -/

structure Dur where
  secs : Nat
  nanos : Nat
deriving DecidableEq, Repr

/-- Total length in nanoseconds of a Duration. -/
def durToNanos (d : Dur) : Nat := d.secs * 1000000000 + d.nanos

/-- Rust std Duration addition: add components and carry one second when the
nanosecond field reaches 10^9. -/
def durAdd (a b : Dur) : Dur :=
  let secs := a.secs + b.secs
  let nanos := a.nanos + b.nanos
  if 1000000000 ≤ nanos then ⟨secs + 1, nanos - 1000000000⟩ else ⟨secs, nanos⟩

/-- Rust std Duration multiplication by u32: multiply the nanosecond field,
carry whole seconds out of it, and multiply the seconds field. -/
def durMul (d : Dur) (k : Nat) : Dur :=
  let totalNanos := d.nanos * k
  let extraSecs := totalNanos / 1000000000
  ⟨d.secs * k + extraSecs, totalNanos % 1000000000⟩

/-- Rust std Duration division by u32: divide the seconds field, and fold the
seconds remainder together with the nanosecond remainder into the divided
nanosecond field. -/
def durDiv (d : Dur) (r : Nat) : Dur :=
  let secs := d.secs / r
  let extraSecs := d.secs % r
  let nanos := d.nanos / r + (extraSecs * 1000000000 + d.nanos % r) / r
  ⟨secs, nanos⟩

/-- Embedding of FuzzingWorker::report_execution_duration: the rolling mean
becomes (avg * stabK + observed * n) / (n + stabK) in Duration arithmetic. -/
def reportExecutionDuration (stabK : Nat) (avg observed : Dur) (n : Nat) : Dur :=
  durDiv (durAdd (durMul avg stabK) (durMul observed n)) (n + stabK)

/-! ### General configuration section (config.rs, ConfigBuilder::parse_general_section)

Yaml scalar values are modelled by YamlLite; looking up a missing key gives
none, which plays the role of Yaml::BadValue.  Path values are kept as raw
strings (canonicalisation touches the file system and is irrelevant to the
properties checked here); errors are collapsed to their message strings. -/

inductive YamlLite where
  | null
  | bool (b : Bool)
  | int (n : Int)
  | str (s : String)
deriving DecidableEq, Repr

/-- A yaml hash: association list from attribute names to values. -/
abbrev YamlMap := List (String × YamlLite)

/-- Attribute access yaml[attr_name]; none models Yaml::BadValue. -/
def yamlGet (y : YamlMap) (k : String) : Option YamlLite :=
  (y.find? fun p => p.1 == k).map Prod.snd

/-- Yaml::as_str. -/
def yamlAsStr : YamlLite → Option String
  | .str s => some s
  | _ => none

/-- Yaml::as_i64. -/
def yamlAsI64 : YamlLite → Option Int
  | .int n => some n
  | _ => none

/-- Yaml::as_bool. -/
def yamlAsBool : YamlLite → Option Bool
  | .bool b => some b
  | _ => none

/-- TryFromYaml for String (and for PathBuf, kept as the raw string):
as_str or a conversion failure. -/
def getString (y : YamlMap) (k : String) : Except String String :=
  match (yamlGet y k).bind yamlAsStr with
  | some s => .ok s
  | none => .error ("Failed to convert attribute " ++ k ++ " to the requested type.")

/-- TryFromYaml for u32: as_i64 followed by the checked conversion to u32. -/
def yamlToU32 (k : String) (v : YamlLite) : Except String Nat :=
  match yamlAsI64 v with
  | some n =>
    if 0 ≤ n ∧ n < 4294967296 then .ok n.toNat
    else .error ("Failed to convert attribute " ++ k ++ " to the requested type.")
  | none => .error ("Failed to convert attribute " ++ k ++ " to the requested type.")

/-- TryFromYaml for bool. -/
def yamlToBool (k : String) (v : YamlLite) : Except String Bool :=
  match yamlAsBool v with
  | some b => .ok b
  | none => .error ("Failed to convert attribute " ++ k ++ " to the requested type.")

/-- TryFromYaml for Option u32: a missing or null value is none, the string
"none" (case-insensitive) is none, anything else must convert to u32. -/
def getOptU32 (y : YamlMap) (k : String) : Except String (Option Nat) :=
  match yamlGet y k with
  | none => .ok none
  | some .null => .ok none
  | some v =>
    match yamlAsStr v with
    | some s =>
      if lowerChars s = "none".data then .ok none
      else
        match yamlToU32 k v with
        | .ok n => .ok (some n)
        | .error e => .error e
    | none =>
      match yamlToU32 k v with
      | .ok n => .ok (some n)
      | .error e => .error e

/-- TryFromYaml for Option bool, with the same none conventions. -/
def getOptBool (y : YamlMap) (k : String) : Except String (Option Bool) :=
  match yamlGet y k with
  | none => .ok none
  | some .null => .ok none
  | some v =>
    match yamlAsStr v with
    | some s =>
      if lowerChars s = "none".data then .ok none
      else
        match yamlToBool k v with
        | .ok b => .ok (some b)
        | .error e => .error e
    | none =>
      match yamlToBool k v with
      | .ok b => .ok (some b)
      | .error e => .error e

/-- ConfigBuilder::check_for_unparsed_keys: reject any key of the hash that
is not among the expected keys. -/
def checkForUnparsedKeys (y : YamlMap) (expected : List String) : Except String Unit :=
  match y.find? fun p => !(expected.contains p.1) with
  | some p => .error ("Unexpected attribute " ++ p.1)
  | none => .ok ()

/-- Expected top-level keys of parse_general_section. -/
def generalExpectedKeys : List String :=
  ["work-directory", "input-directory", "jail-uid", "jail-gid",
   "jail-drop-to-sudo-callee", "sink", "sink-cov", "source", "afl-net",
   "state-afl", "sgfuzz", "vanilla", "phases"]

/-- The fields of GeneralConfig produced by parse_general_section; the
tracing timeout is kept in milliseconds. -/
structure GeneralConfig where
  workDir : String
  inputDir : String
  tracingTimeoutMillis : Nat
  jailUid : Option Nat
  jailGid : Option Nat
  jailDropToSudoCallee : Bool
deriving DecidableEq, Repr

/-- Check on the jail options of parse_general_section: both or neither of
jail_uid and jail_gid must be set. -/
def jailCheck : Option Nat → Option Nat → Except String Unit
  | some _, some _ => .ok ()
  | none, none => .ok ()
  | _, _ => .error "Both or non of jail_uid and jail_gid must be set"

/-- Embedding of ConfigBuilder::parse_general_section; each match on an
Except value plays the role of one ? operator of the Rust code. -/
def parseGeneralSection (y : YamlMap) : Except String GeneralConfig :=
  match getString y "work-directory" with
  | .error e => .error e
  | .ok workDir =>
    match getString y "input-directory" with
    | .error e => .error e
    | .ok inputDir =>
      match getOptU32 y "jail-uid" with
      | .error e => .error e
      | .ok jailUid =>
        match getOptU32 y "jail-gid" with
        | .error e => .error e
        | .ok jailGid =>
          match getOptBool y "jail-drop-to-sudo-callee" with
          | .error e => .error e
          | .ok jailDrop =>
            match jailCheck jailUid jailGid with
            | .error e => .error e
            | .ok _ =>
              match checkForUnparsedKeys y generalExpectedKeys with
              | .error e => .error e
              | .ok _ =>
                .ok { workDir, inputDir, tracingTimeoutMillis := 300000,
                      jailUid, jailGid,
                      jailDropToSudoCallee := jailDrop.getD true }

/-- Whether a jail key is provided with an actual value: present in the hash,
not null, and not the string spelling of none. -/
def jailKeyProvided (y : YamlMap) (k : String) : Bool :=
  match yamlGet y k with
  | none => false
  | some .null => false
  | some v =>
    match yamlAsStr v with
    | some s => !(lowerChars s == "none".data)
    | none => true

/-! ### IEEE-754 double arithmetic for the Add-phase share computation

add_phase_choose_candidates computes each class share as
((weight as f64 / weight_sum as f64) * batch_size as f64) as u32.
The three f64 operations are embedded exactly: a finite non-negative double
is a mantissa in [2^52, 2^53) together with a power-of-two exponent (or
zero), conversion from u32 is exact, division and multiplication round to
nearest with ties to even, and the cast to u32 truncates toward zero and
saturates.  The operands stay far away from overflow, underflow and NaN, so
those regimes are not modelled. -/

/-- Bit length of a natural number, with explicit fuel (sufficient for every
value occurring in the share computation). -/
def natBitsAux : Nat → Nat → Nat
  | 0, _ => 0
  | fuel + 1, n => if n = 0 then 0 else natBitsAux fuel (n / 2) + 1

/-- Bit length of a natural number below 2^128. -/
def natBits (n : Nat) : Nat := natBitsAux 128 n

/-- Round-to-nearest, ties-to-even, of the rational quotient of two naturals. -/
def rneDiv (N D : Nat) : Nat :=
  let q := N / D
  let r := N % D
  if D < 2 * r then q + 1
  else if 2 * r < D then q
  else q + q % 2

/-- A finite non-negative double: value mant * 2 ^ ex, with mant either zero
or normalised into [2^52, 2^53). -/
structure F64 where
  mant : Nat
  ex : Int
deriving DecidableEq, Repr

/-- Exact conversion of a u32 (more generally, any value below 2^53) into a
double. -/
def f64OfNat (n : Nat) : F64 :=
  if n = 0 then ⟨0, 0⟩
  else
    let l := natBits n - 1
    ⟨n * 2 ^ (52 - l), (l : Int) - 52⟩

/-- Correctly rounded double division (nonzero numerator and denominator). -/
def f64Div (a b : F64) : F64 :=
  if a.mant = 0 ∨ b.mant = 0 then ⟨0, 0⟩
  else
    let N := a.mant * 2 ^ 53
    let d : Nat := if 2 ^ 53 ≤ N / b.mant then 1 else 0
    let m := rneDiv N (b.mant * 2 ^ d)
    let e : Int := a.ex - b.ex - 53 + d
    if m = 2 ^ 53 then ⟨2 ^ 52, e + 1⟩ else ⟨m, e⟩

/-- Correctly rounded double multiplication. -/
def f64Mul (a b : F64) : F64 :=
  if a.mant = 0 ∨ b.mant = 0 then ⟨0, 0⟩
  else
    let P := a.mant * b.mant
    let d : Nat := if 2 ^ 105 ≤ P then 53 else 52
    let m := rneDiv P (2 ^ d)
    let e : Int := a.ex + b.ex + d
    if m = 2 ^ 53 then ⟨2 ^ 52, e + 1⟩ else ⟨m, e⟩

/-- Rust cast of a finite non-negative double to u32: truncate toward zero
and saturate at u32::MAX. -/
def f64AsU32 (a : F64) : Nat :=
  let v := if 0 ≤ a.ex then a.mant * 2 ^ a.ex.toNat else a.mant / 2 ^ (-a.ex).toNat
  min v 4294967295

/-- Embedding of the calc_share closure of add_phase_choose_candidates:
((weight as f64 / weight_sum as f64) * batch_size as f64) as u32. -/
def calcShare (weight weightSum batchSize : Nat) : Nat :=
  f64AsU32 (f64Mul (f64Div (f64OfNat weight) (f64OfNat weightSum)) (f64OfNat batchSize))

/-! ### Add-phase candidate selection (phases/add.rs, add_phase_choose_candidates)

A mutation-cache entry is its patch-point id and its mask length
(is_nop holds exactly when the mask is empty).  The candidate pool is the
entry list of the temporary mutation cache after union/remove/resize (the
mutation-cache crate sits outside the provided sources, so the pool is the
input).  The randomness of the yielding and random draws and the iteration
order of the unfuzzed hash-set intersection enter as parameters:
unfuzzedOrder is the iteration order of patch_points_unfuzzed intersected
with the covered set, yieldingPick is the value of choose_multiple on the
yielding candidates, and randomPick is the value of choose_multiple on the
remaining pool. -/

structure Mce where
  id : Nat
  maskLen : Nat
deriving DecidableEq, Repr

/-- MutationCacheEntry::is_nop: the mask is empty. -/
def mceIsNop (e : Mce) : Bool := e.maskLen == 0

/-- The forced part of the selection: all non-nop entries of the pool
(extract_if with the negated nop test). -/
def addForced (pool : List Mce) : List Mce :=
  pool.filter fun e => !(mceIsNop e)

/-- The drawable candidate pool: the nop entries remaining after the non-nop
entries were extracted. -/
def addCandidates0 (pool : List Mce) : List Mce :=
  pool.filter fun e => mceIsNop e

/-- The ids drawn for the unfuzzed class: the first share-many elements of
the iteration of unfuzzed ∩ covered. -/
def addUnfuzzedSelIds (unfuzzedOrder covered : List Nat) (share : Nat) : List Nat :=
  (unfuzzedOrder.filter fun i => covered.contains i).take share

/-- Entries extracted from the pool for the unfuzzed class. -/
def addUnfuzzedSel (pool : List Mce) (unfuzzedOrder covered : List Nat)
    (share : Nat) : List Mce :=
  (addCandidates0 pool).filter fun e =>
    (addUnfuzzedSelIds unfuzzedOrder covered share).contains e.id

/-- The candidate pool after the unfuzzed class withdrew its picks. -/
def addCandidates1 (pool : List Mce) (unfuzzedOrder covered : List Nat)
    (share : Nat) : List Mce :=
  (addCandidates0 pool).filter fun e =>
    !((addUnfuzzedSelIds unfuzzedOrder covered share).contains e.id)

/-- Entries extracted from the pool for the yielding class, given the ids the
random draw chose from the yielding candidates. -/
def addYieldingSel (pool : List Mce) (unfuzzedOrder covered : List Nat)
    (share : Nat) (yieldingPick : List Nat) : List Mce :=
  (addCandidates1 pool unfuzzedOrder covered share).filter fun e =>
    yieldingPick.contains e.id

/-- The candidate pool after the yielding class withdrew its picks; the
random class draws (choose_multiple) from this list. -/
def addCandidates2 (pool : List Mce) (unfuzzedOrder covered : List Nat)
    (share : Nat) (yieldingPick : List Nat) : List Mce :=
  (addCandidates1 pool unfuzzedOrder covered share).filter fun e =>
    !(yieldingPick.contains e.id)

/-- The final selection of add_phase_choose_candidates: the forced non-nop
entries followed by the three class draws (the random class contributes its
choose_multiple result unchanged; afterwards the code only withdraws those
elements from the pool by id). -/
def addSelection (pool : List Mce) (unfuzzedOrder covered : List Nat)
    (share : Nat) (yieldingPick : List Nat) (randomPick : List Mce) : List Mce :=
  addForced pool ++ addUnfuzzedSel pool unfuzzedOrder covered share ++
    addYieldingSel pool unfuzzedOrder covered share yieldingPick ++ randomPick

/-! ## Supporting lemmas -/

/-- Each pass of the restart loop spawns at most maxCnt + 1 minus the current
registry size many replacements: a spawn only happens while the registry
length is at most maxCnt, and every spawn grows the registry by one. -/
theorem restartLoop_spawns_le (maxCnt : Nat) (crashed : List Nat) :
    ∀ (pending restarted : List Nat),
      (restartLoop maxCnt crashed pending restarted).2 ≤ (maxCnt + 1) - restarted.length := by
  intro pending
  induction pending with
  | nil => intro r; simp [restartLoop]
  | cons u rest ih =>
    intro r
    simp only [restartLoop]
    split
    · simp
    · have h2 := ih (r ++ [u])
      simp only [List.length_append, List.length_cons, List.length_nil] at h2
      omega

/-- The restart loop grows the registry by at least one entry per spawned
replacement. -/
theorem restartLoop_length_ge (maxCnt : Nat) (crashed : List Nat) :
    ∀ (pending restarted : List Nat),
      restarted.length + (restartLoop maxCnt crashed pending restarted).2 ≤
        (restartLoop maxCnt crashed pending restarted).1.length := by
  intro pending
  induction pending with
  | nil => intro r; simp [restartLoop]
  | cons u rest ih =>
    intro r
    simp only [restartLoop]
    split
    · simp
    · have h2 := ih (r ++ [u])
      simp only [List.length_append, List.length_cons, List.length_nil] at h2
      dsimp only
      omega

/-- Budget bound for whole campaign lifetimes, relative to the starting
registry size. -/
theorem campaignRestarts_spawns_le (maxCnt : Nat) :
    ∀ (runs : List (List (Nat × Bool))) (restarted : List Nat),
      (campaignRestarts maxCnt runs restarted).2 ≤ (maxCnt + 1) - restarted.length := by
  intro runs
  induction runs with
  | nil => intro r; simp [campaignRestarts]
  | cons ws rest ih =>
    intro r
    simp only [campaignRestarts, restartCrashedWorker]
    have h1 := restartLoop_spawns_le maxCnt
      ((ws.filter fun w => !w.2 && !(r.contains w.1)).map Prod.fst)
      ((ws.filter fun w => !w.2 && !(r.contains w.1)).map Prod.fst) r
    have h2 := restartLoop_length_ge maxCnt
      ((ws.filter fun w => !w.2 && !(r.contains w.1)).map Prod.fst)
      ((ws.filter fun w => !w.2 && !(r.contains w.1)).map Prod.fst) r
    have h3 := ih (restartLoop maxCnt
      ((ws.filter fun w => !w.2 && !(r.contains w.1)).map Prod.fst)
      ((ws.filter fun w => !w.2 && !(r.contains w.1)).map Prod.fst) r).1
    omega

/-- With cleared-bits flag false, has_new_bit leaves the virgin map
unchanged. -/
theorem hasNewBitGo_fst_of_not_cleared :
    ∀ (cov virgin : List Nat), (hasNewBitGo cov virgin).2.1 = false →
      (hasNewBitGo cov virgin).1 = virgin := by
  intro cov
  induction cov with
  | nil => intro v _; cases v <;> rfl
  | cons c cs ih =>
    intro v h
    cases v with
    | nil => rfl
    | cons b bs =>
      simp only [hasNewBitGo, Bool.or_eq_false_iff, Bool.not_eq_false',
        beq_iff_eq] at h
      simp only [hasNewBitGo, List.cons.injEq]
      exact ⟨h.2, ih bs h.1⟩

/-- Conversion lemma: a successfully parsed optional jail attribute is some
exactly when the attribute was provided with an actual value. -/
theorem getOptU32_isSome (y : YamlMap) (k : String) :
    ∀ v, getOptU32 y k = .ok v → v.isSome = jailKeyProvided y k := by
  intro v h
  unfold getOptU32 jailKeyProvided at *
  cases hy : yamlGet y k with
  | none => rw [hy] at h; cases h; rfl
  | some val =>
    rw [hy] at h
    cases val with
    | null => cases h; rfl
    | bool b => simp [yamlAsStr, yamlToU32, yamlAsI64] at h
    | int n =>
      by_cases hn : 0 ≤ n ∧ n < 4294967296
      · simp only [yamlAsStr, yamlToU32, yamlAsI64, if_pos hn] at h
        cases h; rfl
      · simp only [yamlAsStr, yamlToU32, yamlAsI64, if_neg hn] at h
        cases h
    | str s =>
      by_cases hs : lowerChars s = "none".data
      · simp only [yamlAsStr, if_pos hs] at h
        cases h
        simp [yamlAsStr, hs]
      · simp [yamlAsStr, if_neg hs, yamlToU32, yamlAsI64] at h

/-- Inversion of the jail consistency check. -/
theorem jailCheck_ok : ∀ (a b : Option Nat) (u : Unit), jailCheck a b = .ok u →
    a.isSome = b.isSome := by
  intro a b u h
  cases a <;> cases b <;> simp_all [jailCheck]

/-- Inversion of a successful parse of the general section: the tracing
timeout is the hard-wired 300 s and the jail options passed their
consistency check. -/
theorem parseGeneralSection_ok_inv (y : YamlMap) (cfg : GeneralConfig)
    (hp : parseGeneralSection y = .ok cfg) :
    cfg.tracingTimeoutMillis = 300000 ∧
    getOptU32 y "jail-uid" = .ok cfg.jailUid ∧
    getOptU32 y "jail-gid" = .ok cfg.jailGid ∧
    cfg.jailUid.isSome = cfg.jailGid.isSome := by
  unfold parseGeneralSection at hp
  split at hp
  next => cases hp
  next workDir h1 =>
  split at hp
  next => cases hp
  next inputDir h2 =>
  split at hp
  next => cases hp
  next jailUid h3 =>
  split at hp
  next => cases hp
  next jailGid h4 =>
  split at hp
  next => cases hp
  next jailDrop h5 =>
  split at hp
  next => cases hp
  next u h6 =>
  split at hp
  next => cases hp
  next u2 h7 =>
  cases hp
  exact ⟨rfl, h3, h4, jailCheck_ok _ _ _ h6⟩

/-- Helper for C1: once the registry exceeds the bound, a restart pass spawns
nothing and ends with a registry containing the old registry and the whole
crashed list. -/
theorem restartLoop_over (maxCnt : Nat) (crashed restarted : List Nat)
    (h : restarted.length > maxCnt) :
    (restartLoop maxCnt crashed crashed restarted).2 = 0 ∧
    ∀ a, a ∈ restarted ∨ a ∈ crashed →
      a ∈ (restartLoop maxCnt crashed crashed restarted).1 := by
  cases crashed with
  | nil =>
    refine ⟨rfl, ?_⟩
    intro a ha
    rcases ha with ha | ha
    · simpa [restartLoop] using ha
    · cases ha
  | cons u cs =>
    constructor
    · simp [restartLoop, if_pos h]
    · intro a ha
      simp only [restartLoop, if_pos h]
      exact List.mem_append.mpr ha

/-! ## Claim theorems -/

/-- Claim C1 (amended): restart_crashed_worker uses the strict comparison
restarted_worker.len() > MAX_WORKER_RESTART_CNT, so across a campaign's
lifetime at most MAX_WORKER_RESTART_CNT + 1 replacement workers are spawned;
and once the registry exceeds the bound, a call spawns no replacement and
adds every dead, not-yet-registered worker to the restarted registry, so no
further replacement is ever spawned for it. -/
theorem C1_restart_budget_amended :
    (∀ (maxCnt : Nat) (runs : List (List (Nat × Bool))),
        (campaignRestarts maxCnt runs []).2 ≤ maxCnt + 1) ∧
    (∀ (maxCnt : Nat) (ws : List (Nat × Bool)) (restarted : List Nat),
        restarted.length > maxCnt →
          (restartCrashedWorker maxCnt ws restarted).2 = 0 ∧
          ∀ w ∈ ws, w.2 = false →
            w.1 ∈ (restartCrashedWorker maxCnt ws restarted).1) := by
  constructor
  · intro maxCnt runs
    simpa using campaignRestarts_spawns_le maxCnt runs []
  · intro maxCnt ws restarted h
    have key := restartLoop_over maxCnt
      ((ws.filter fun w => !w.2 && !(restarted.contains w.1)).map Prod.fst) restarted h
    refine ⟨key.1, ?_⟩
    intro w hw hdead
    apply key.2
    by_cases hmem : w.1 ∈ restarted
    · exact Or.inl hmem
    · refine Or.inr (List.mem_map.mpr ⟨w, List.mem_filter.mpr ⟨hw, ?_⟩, rfl⟩)
      simp [hdead, hmem]

/-- Claim C1 counterexample: with the restart bound set to 2 and three dead
workers, restart_crashed_worker spawns three replacements, contradicting the
claimed bound of at most MAX_WORKER_RESTART_CNT re-spawned workers (the code
compares with strict greater-than, admitting one extra restart). -/
theorem C1_counterexample :
    (restartCrashedWorker 2 [(1, false), (2, false), (3, false)] []).2 = 3 ∧
    ¬((restartCrashedWorker 2 [(1, false), (2, false), (3, false)] []).2 ≤ 2) := by
  decide

/-- Witness for C1: the amended budget bound and the marking behaviour,
instantiated at concrete campaigns. -/
theorem C1_witness :
    (campaignRestarts 2
        [[(1, false), (2, false), (3, false)], [(4, false)], [(5, false)]] []).2 ≤ 3 ∧
    ((restartCrashedWorker 0 [(7, false)] [9]).2 = 0 ∧
      ∀ w ∈ [((7 : Nat), false)], w.2 = false →
        w.1 ∈ (restartCrashedWorker 0 [(7, false)] [9]).1) :=
  ⟨C1_restart_budget_amended.1 2 _,
   C1_restart_budget_amended.2 0 [(7, false)] [9] (by decide)⟩

/-- Claim C2 (code bug): when tracing fails, trace_queue_entry surfaces the
error but leaves tracing_in_progress set (the error path never clears the
flag), so every later call returns None instead of re-attempting the trace;
on success the trace is stored and the flag is cleared. -/
theorem C2_tracing_flag_after_failure :
    traceQueueEntry ⟨none, false⟩ (.error "tracing failed") =
      (.error "tracing failed", ⟨none, true⟩) ∧
    traceQueueEntry ⟨none, true⟩ (.ok [7]) = (.ok none, ⟨none, true⟩) ∧
    traceQueueEntry ⟨none, false⟩ (.ok [7]) =
      (.ok (some [7]), ⟨some [7], false⟩) :=
  ⟨rfl, rfl, rfl⟩

/-- Claim C3 counterexample: the claim asserts that "listen(0)" yields a
parse error, but the parser succeeds with Listen(0): the unanchored regex
matches the keyword alone, the count group failing on the digit 0. -/
theorem C3_counterexample :
    serverReadyFromStr "listen(0)" = some (.listen 0) := by
  rfl

/-- Claim C3 (amended): the server-ready-on parser maps "bind" to Bind(0) and
"listen(3)" to Listen(3); for "listen(0)" it does not error but falls back to
the default occurrence count, producing Listen(0). -/
theorem C3_server_ready_amended :
    serverReadyFromStr "bind" = some (.bind 0) ∧
    serverReadyFromStr "listen(3)" = some (.listen 3) ∧
    serverReadyFromStr "listen(0)" = some (.listen 0) :=
  ⟨rfl, rfl, rfl⟩

/-- Claim C4 counterexample: the claim asserts that "5min" is rejected, but
the unanchored regex finds the match "5m" inside it, so the parser accepts
"5min" as five minutes. -/
theorem C4_counterexample :
    fromStrDuration "5min" = .ok 300000 := by
  rfl

/-- Claim C4 (amended): the duration parser returns the corresponding
duration for "30s", "5m", "2h", "1d", "1a" and errors on "1" and "";
"5min" is accepted as five minutes because the regex search is unanchored,
so any string containing a substring of the grammar n(s|m|h|d|a) is
accepted. -/
theorem C4_duration_parser_amended :
    fromStrDuration "30s" = .ok 30000 ∧
    fromStrDuration "5m" = .ok 300000 ∧
    fromStrDuration "2h" = .ok 7200000 ∧
    fromStrDuration "1d" = .ok 86400000 ∧
    fromStrDuration "1a" = .ok 31536000000 ∧
    (fromStrDuration "1").isOk = false ∧
    (fromStrDuration "").isOk = false ∧
    fromStrDuration "5min" = .ok 300000 :=
  ⟨rfl, rfl, rfl, rfl, rfl, rfl, rfl, rfl⟩

/-- Claim C6 (confirmed): the Add-phase mutator iteration budget is 32·L for
mask length L ≤ 32, 16·L for 32 < L ≤ 128, and 16·128 beyond, with the
claimed boundary values at L = 0, 1, 32, 33, 128, 129. -/
theorem C6_iteration_budget :
    (∀ l, l ≤ 32 → addPhaseIterations l = 32 * l) ∧
    (∀ l, 32 < l → l ≤ 128 → addPhaseIterations l = 16 * l) ∧
    (∀ l, 128 < l → addPhaseIterations l = 16 * 128) ∧
    addPhaseIterations 0 = 0 ∧ addPhaseIterations 1 = 32 ∧
    addPhaseIterations 32 = 1024 ∧ addPhaseIterations 33 = 528 ∧
    addPhaseIterations 128 = 2048 ∧ addPhaseIterations 129 = 2048 := by
  refine ⟨?_, ?_, ?_, rfl, rfl, rfl, rfl, rfl, rfl⟩
  · intro l h
    unfold addPhaseIterations
    rw [if_pos h]
  · intro l h1 h2
    unfold addPhaseIterations
    rw [if_neg (by omega), if_pos h2]
  · intro l h
    unfold addPhaseIterations
    rw [if_neg (by omega), if_neg (by omega)]

/-- Witness for C6: the three branches of the budget formula at concrete
mask lengths. -/
theorem C6_witness :
    addPhaseIterations 5 = 32 * 5 ∧ addPhaseIterations 100 = 16 * 100 ∧
    addPhaseIterations 200 = 16 * 128 :=
  ⟨C6_iteration_budget.1 5 (by decide),
   C6_iteration_budget.2.1 100 (by decide) (by decide),
   C6_iteration_budget.2.2.1 200 (by decide)⟩

/-- Claim C7 (confirmed): check_virgin_maps first tests the local virgin map;
on a local NoNew it returns NoNew leaving both maps untouched, and on a
local hit it returns the has_new_bit status of the global map and overwrites
the local map with the global map's (updated) contents. -/
theorem C7_check_virgin_maps :
    ∀ (cov loc glob : List Nat),
      ((hasNewBit cov loc).1 = .noNew →
        checkVirginMaps cov loc glob = (.noNew, loc, glob)) ∧
      ((hasNewBit cov loc).1 ≠ .noNew →
        checkVirginMaps cov loc glob =
          ((hasNewBit cov glob).1, (hasNewBit cov glob).2, (hasNewBit cov glob).2)) := by
  intro cov loc glob
  constructor
  · intro h
    cases hE : (hasNewBitGo cov loc).2.2 with
    | true => simp [hasNewBit, hE] at h
    | false =>
      cases hC : (hasNewBitGo cov loc).2.1 with
      | true => simp [hasNewBit, hE, hC] at h
      | false =>
        simp [checkVirginMaps, hasNewBit, hE, hC,
          hasNewBitGo_fst_of_not_cleared cov loc hC]
  · intro h
    cases hE : (hasNewBitGo cov loc).2.2 with
    | true => simp [checkVirginMaps, hasNewBit, hE]
    | false =>
      cases hC : (hasNewBitGo cov loc).2.1 with
      | true => simp [checkVirginMaps, hasNewBit, hE, hC]
      | false => exact absurd (by simp [hasNewBit, hE, hC]) h

/-- Witness for C7: both branches of check_virgin_maps at concrete bitmaps. -/
theorem C7_witness :
    checkVirginMaps [0, 1] [255, 254] [9, 9] = (.noNew, [255, 254], [9, 9]) ∧
    checkVirginMaps [0, 1] [255, 255] [255, 254] =
      (.noNew, [255, 254], [255, 254]) :=
  ⟨(C7_check_virgin_maps [0, 1] [255, 254] [9, 9]).1 (by decide),
   (C7_check_virgin_maps [0, 1] [255, 255] [255, 254]).2 (by decide)⟩

/-- Nanosecond value of a Duration sum. -/
theorem durToNanos_add (a b : Dur) :
    durToNanos (durAdd a b) = durToNanos a + durToNanos b := by
  simp only [durAdd, durToNanos]
  split <;> dsimp only <;> omega

/-- Nanosecond value of a Duration scaled by a u32. -/
theorem durToNanos_mul (d : Dur) (k : Nat) :
    durToNanos (durMul d k) = durToNanos d * k := by
  simp only [durMul, durToNanos]
  calc (d.secs * k + d.nanos * k / 1000000000) * 1000000000 +
        d.nanos * k % 1000000000
      = d.secs * k * 1000000000 +
        (1000000000 * (d.nanos * k / 1000000000) + d.nanos * k % 1000000000) := by
        ring
    _ = d.secs * k * 1000000000 + d.nanos * k := by rw [Nat.div_add_mod]
    _ = (d.secs * 1000000000 + d.nanos) * k := by ring

/-- Duration division by a u32 is exact integer division on total
nanoseconds. -/
theorem durToNanos_div (d : Dur) (r : Nat) (hr : 0 < r) :
    durToNanos (durDiv d r) = durToNanos d / r := by
  simp only [durDiv, durToNanos]
  have key : d.secs * 1000000000 + d.nanos =
      r * (d.secs / r * 1000000000 + d.nanos / r) +
        (d.secs % r * 1000000000 + d.nanos % r) := by
    have h1 := Nat.div_add_mod d.secs r
    have h2 := Nat.div_add_mod d.nanos r
    calc d.secs * 1000000000 + d.nanos
        = (r * (d.secs / r) + d.secs % r) * 1000000000 +
          (r * (d.nanos / r) + d.nanos % r) := by rw [h1, h2]
      _ = r * (d.secs / r * 1000000000 + d.nanos / r) +
          (d.secs % r * 1000000000 + d.nanos % r) := by ring
  rw [key, Nat.mul_add_div hr]
  ring

/-- Claim C8 (confirmed): report_execution_duration updates the rolling mean
exactly as avg := (avg·K + observed·n) / (n + K) in exact integer nanosecond
arithmetic. -/
theorem C8_execution_time_averaging :
    ∀ (stabK : Nat) (avg observed : Dur) (n : Nat), 0 < n + stabK →
      durToNanos (reportExecutionDuration stabK avg observed n) =
        (durToNanos avg * stabK + durToNanos observed * n) / (n + stabK) := by
  intro stabK avg observed n h
  unfold reportExecutionDuration
  rw [durToNanos_div _ _ h, durToNanos_add, durToNanos_mul, durToNanos_mul]

/-- Witness for C8: the averaging identity at a concrete state. -/
theorem C8_witness :
    durToNanos (reportExecutionDuration 2 ⟨1, 500000000⟩ ⟨0, 2⟩ 1) =
      (durToNanos ⟨1, 500000000⟩ * 2 + durToNanos ⟨0, 2⟩ * 1) / (1 + 2) :=
  C8_execution_time_averaging 2 ⟨1, 500000000⟩ ⟨0, 2⟩ 1 (by decide)

/-- Claim C9 (confirmed): parsing the general section fails with an error
whenever exactly one of jail-uid and jail-gid is provided. -/
theorem C9_jail_uid_gid_both_or_neither :
    ∀ y : YamlMap,
      jailKeyProvided y "jail-uid" ≠ jailKeyProvided y "jail-gid" →
      ∃ e, parseGeneralSection y = .error e := by
  intro y h
  cases hp : parseGeneralSection y with
  | error e => exact ⟨e, rfl⟩
  | ok cfg =>
    exfalso
    obtain ⟨-, hu, hg, hsome⟩ := parseGeneralSection_ok_inv y cfg hp
    rw [getOptU32_isSome y "jail-uid" cfg.jailUid hu,
        getOptU32_isSome y "jail-gid" cfg.jailGid hg] at hsome
    exact h hsome

/-- Witness for C9: a configuration providing only jail-uid fails to parse. -/
theorem C9_witness :
    ∃ e, parseGeneralSection
        [("work-directory", .str "w"), ("input-directory", .str "i"),
         ("jail-uid", .int 5)] = .error e :=
  C9_jail_uid_gid_both_or_neither _ (by decide)

/-- Claim C10 (confirmed): every successfully parsed general section carries
a tracing timeout of exactly 300 seconds; no yaml key can change it. -/
theorem C10_tracing_timeout_fixed :
    ∀ (y : YamlMap) (cfg : GeneralConfig),
      parseGeneralSection y = .ok cfg → cfg.tracingTimeoutMillis = 300000 := by
  intro y cfg hp
  exact (parseGeneralSection_ok_inv y cfg hp).1

/-- Witness for C10: a concrete successful parse has the 300 s timeout. -/
theorem C10_witness :
    (GeneralConfig.mk "w" "i" 300000 none none true).tracingTimeoutMillis =
      300000 :=
  C10_tracing_timeout_fixed
    [("work-directory", .str "w"), ("input-directory", .str "i")] _ rfl

/-- Helper: a duplicate-free list contained in another list is no longer
than it. -/
theorem nodup_subset_length_le (l1 l2 : List Nat) (h1 : l1.Nodup)
    (h2 : l1 ⊆ l2) : l1.length ≤ l2.length :=
  calc l1.length = l1.toFinset.card := (List.toFinset_card_of_nodup h1).symm
    _ ≤ l2.toFinset.card :=
      Finset.card_le_card fun a ha =>
        List.mem_toFinset.mpr (h2 (List.mem_toFinset.mp ha))
    _ ≤ l2.length := l2.toFinset_card_le

/-- Helper: ids of the unfuzzed draw come from the drawn id list. -/
theorem mem_addUnfuzzedSel_id (pool : List Mce) (uo cov : List Nat)
    (share : Nat) (e : Mce) (he : e ∈ addUnfuzzedSel pool uo cov share) :
    e.id ∈ addUnfuzzedSelIds uo cov share := by
  simpa using (List.mem_filter.mp he).2

/-- Helper: after the unfuzzed class withdrew its picks, no remaining
candidate carries one of the withdrawn ids. -/
theorem mem_addCandidates1_id (pool : List Mce) (uo cov : List Nat)
    (share : Nat) (e : Mce) (he : e ∈ addCandidates1 pool uo cov share) :
    e.id ∉ addUnfuzzedSelIds uo cov share := by
  simpa using (List.mem_filter.mp he).2

/-- Helper: ids of the yielding draw come from the chosen yielding ids, and
the drawn entries still sit in the post-unfuzzed pool. -/
theorem mem_addYieldingSel_id (pool : List Mce) (uo cov : List Nat)
    (share : Nat) (yp : List Nat) (e : Mce)
    (he : e ∈ addYieldingSel pool uo cov share yp) :
    e.id ∈ yp ∧ e ∈ addCandidates1 pool uo cov share := by
  have h := List.mem_filter.mp he
  exact ⟨by simpa using h.2, h.1⟩

/-- Helper: after the yielding class withdrew its picks, no remaining
candidate carries a chosen yielding id, and all of them survived the
unfuzzed withdrawal. -/
theorem mem_addCandidates2_id (pool : List Mce) (uo cov : List Nat)
    (share : Nat) (yp : List Nat) (e : Mce)
    (he : e ∈ addCandidates2 pool uo cov share yp) :
    e.id ∉ yp ∧ e ∈ addCandidates1 pool uo cov share := by
  have h := List.mem_filter.mp he
  exact ⟨by simpa using h.2, h.1⟩

/-- Helper: the unfuzzed draw is a sublist of the pool. -/
theorem addUnfuzzedSel_sublist (pool : List Mce) (uo cov : List Nat)
    (share : Nat) : (addUnfuzzedSel pool uo cov share).Sublist pool := by
  simp only [addUnfuzzedSel, addCandidates0]
  exact (List.filter_sublist _).trans (List.filter_sublist _)

/-- Helper: the yielding draw is a sublist of the pool. -/
theorem addYieldingSel_sublist (pool : List Mce) (uo cov : List Nat)
    (share : Nat) (yp : List Nat) :
    (addYieldingSel pool uo cov share yp).Sublist pool := by
  simp only [addYieldingSel, addCandidates1, addCandidates0]
  exact ((List.filter_sublist _).trans (List.filter_sublist _)).trans
    (List.filter_sublist _)

/-- Helper: the unfuzzed class draws at most its share (with unique pool
ids, each drawn id matches at most one entry). -/
theorem addUnfuzzedSel_length_le (pool : List Mce) (uo cov : List Nat)
    (share : Nat) (hnd : (pool.map Mce.id).Nodup) :
    (addUnfuzzedSel pool uo cov share).length ≤ share := by
  have hnd1 : ((addUnfuzzedSel pool uo cov share).map Mce.id).Nodup :=
    hnd.sublist ((addUnfuzzedSel_sublist pool uo cov share).map Mce.id)
  have hss : (addUnfuzzedSel pool uo cov share).map Mce.id ⊆
      addUnfuzzedSelIds uo cov share := by
    intro a ha
    obtain ⟨e, he, rfl⟩ := List.mem_map.mp ha
    exact mem_addUnfuzzedSel_id pool uo cov share e he
  have h1 := nodup_subset_length_le _ _ hnd1 hss
  have h2 : (addUnfuzzedSelIds uo cov share).length ≤ share :=
    List.length_take_le _ _
  simp only [List.length_map] at h1
  omega

/-- Helper: the yielding class draws at most as many entries as ids were
chosen for it. -/
theorem addYieldingSel_length_le (pool : List Mce) (uo cov : List Nat)
    (share : Nat) (yp : List Nat) (hnd : (pool.map Mce.id).Nodup) :
    (addYieldingSel pool uo cov share yp).length ≤ yp.length := by
  have hnd1 : ((addYieldingSel pool uo cov share yp).map Mce.id).Nodup :=
    hnd.sublist ((addYieldingSel_sublist pool uo cov share yp).map Mce.id)
  have hss : (addYieldingSel pool uo cov share yp).map Mce.id ⊆ yp := by
    intro a ha
    obtain ⟨e, he, rfl⟩ := List.mem_map.mp ha
    exact (mem_addYieldingSel_id pool uo cov share yp e he).1
  have h1 := nodup_subset_length_le _ _ hnd1 hss
  simp only [List.length_map] at h1
  omega

/-- Claim C5 (amended): each Add-phase class share is the u32 truncation of
the IEEE-754 double expression (w_c / Σw) · batch_size, which can fall below
floor((w_c / Σw) · batch_size) (at weights 1:24:24 with batch size 49 the
computed share is 0, not 1; at the defaults 1:1:1 with batch 12 it is the
floor value 4).  The three classes draw pairwise disjoint patch-point ids,
because each class's picks are withdrawn from the shared candidate pool
before the next class draws, and the total number of drawn candidates is at
most the sum of the three computed shares. -/
theorem C5_add_selection_amended :
    calcShare 1 49 49 = 0 ∧
    calcShare 1 3 12 = 4 ∧
    ∀ (batch wU wY wR : Nat) (pool : List Mce)
      (uo cov yieldingPick : List Nat) (randomPick : List Mce),
      (pool.map Mce.id).Nodup →
      yieldingPick.length ≤ calcShare wY (wU + wY + wR) batch →
      randomPick.Sublist (addCandidates2 pool uo cov
        (calcShare wU (wU + wY + wR) batch) yieldingPick) →
      randomPick.length ≤ calcShare wR (wU + wY + wR) batch →
      ((addUnfuzzedSel pool uo cov (calcShare wU (wU + wY + wR) batch)).map
          Mce.id).Disjoint
        ((addYieldingSel pool uo cov (calcShare wU (wU + wY + wR) batch)
          yieldingPick).map Mce.id) ∧
      ((addUnfuzzedSel pool uo cov (calcShare wU (wU + wY + wR) batch)).map
          Mce.id).Disjoint (randomPick.map Mce.id) ∧
      ((addYieldingSel pool uo cov (calcShare wU (wU + wY + wR) batch)
          yieldingPick).map Mce.id).Disjoint (randomPick.map Mce.id) ∧
      (addUnfuzzedSel pool uo cov (calcShare wU (wU + wY + wR) batch)).length +
        (addYieldingSel pool uo cov (calcShare wU (wU + wY + wR) batch)
          yieldingPick).length + randomPick.length ≤
        calcShare wU (wU + wY + wR) batch + calcShare wY (wU + wY + wR) batch +
          calcShare wR (wU + wY + wR) batch := by
  refine ⟨by decide, by decide, ?_⟩
  intro batch wU wY wR pool uo cov yieldingPick randomPick hnd hy hsub hr
  set sU := calcShare wU (wU + wY + wR) batch with hsU
  refine ⟨?_, ?_, ?_, ?_⟩
  · intro a ha hb
    obtain ⟨e, he, rfl⟩ := List.mem_map.mp ha
    obtain ⟨e2, he2, hee⟩ := List.mem_map.mp hb
    have h1 := mem_addUnfuzzedSel_id pool uo cov sU e he
    have h2 := mem_addCandidates1_id pool uo cov sU e2
      (mem_addYieldingSel_id pool uo cov sU yieldingPick e2 he2).2
    rw [hee] at h2
    exact h2 h1
  · intro a ha hb
    obtain ⟨e, he, rfl⟩ := List.mem_map.mp ha
    obtain ⟨e2, he2, hee⟩ := List.mem_map.mp hb
    have h1 := mem_addUnfuzzedSel_id pool uo cov sU e he
    have h2 := mem_addCandidates1_id pool uo cov sU e2
      (mem_addCandidates2_id pool uo cov sU yieldingPick e2
        (hsub.subset he2)).2
    rw [hee] at h2
    exact h2 h1
  · intro a ha hb
    obtain ⟨e, he, rfl⟩ := List.mem_map.mp ha
    obtain ⟨e2, he2, hee⟩ := List.mem_map.mp hb
    have h1 := (mem_addYieldingSel_id pool uo cov sU yieldingPick e he).1
    have h2 := (mem_addCandidates2_id pool uo cov sU yieldingPick e2
      (hsub.subset he2)).1
    rw [hee] at h2
    exact h2 h1
  · have b1 := addUnfuzzedSel_length_le pool uo cov sU hnd
    have b2 := addYieldingSel_length_le pool uo cov sU yieldingPick hnd
    omega

/-- Claim C5 counterexample: with select weights 1:24:24 (weight sum 49) and
batch size 49, the code's f64 share for the weight-1 class truncates to 0,
while floor((1/49)·49) = 1; the claimed floor formula does not hold. -/
theorem C5_counterexample :
    calcShare 1 49 49 = 0 ∧ 1 * 49 / 49 = 1 := by
  decide

/-- Witness for C5: the amended selection properties at a concrete pool with
the default weights 1:1:1 and batch size 12. -/
theorem C5_witness :
    ((addUnfuzzedSel [⟨1, 0⟩, ⟨2, 5⟩, ⟨3, 0⟩, ⟨4, 0⟩] [1] [1, 3, 4]
        (calcShare 1 (1 + 1 + 1) 12)).map Mce.id).Disjoint
      ((addYieldingSel [⟨1, 0⟩, ⟨2, 5⟩, ⟨3, 0⟩, ⟨4, 0⟩] [1] [1, 3, 4]
        (calcShare 1 (1 + 1 + 1) 12) [3]).map Mce.id) ∧
    ((addUnfuzzedSel [⟨1, 0⟩, ⟨2, 5⟩, ⟨3, 0⟩, ⟨4, 0⟩] [1] [1, 3, 4]
        (calcShare 1 (1 + 1 + 1) 12)).map Mce.id).Disjoint
      (([(⟨4, 0⟩ : Mce)]).map Mce.id) ∧
    ((addYieldingSel [⟨1, 0⟩, ⟨2, 5⟩, ⟨3, 0⟩, ⟨4, 0⟩] [1] [1, 3, 4]
        (calcShare 1 (1 + 1 + 1) 12) [3]).map Mce.id).Disjoint
      (([(⟨4, 0⟩ : Mce)]).map Mce.id) ∧
    (addUnfuzzedSel [⟨1, 0⟩, ⟨2, 5⟩, ⟨3, 0⟩, ⟨4, 0⟩] [1] [1, 3, 4]
        (calcShare 1 (1 + 1 + 1) 12)).length +
      (addYieldingSel [⟨1, 0⟩, ⟨2, 5⟩, ⟨3, 0⟩, ⟨4, 0⟩] [1] [1, 3, 4]
        (calcShare 1 (1 + 1 + 1) 12) [3]).length + [(⟨4, 0⟩ : Mce)].length ≤
      calcShare 1 (1 + 1 + 1) 12 + calcShare 1 (1 + 1 + 1) 12 +
        calcShare 1 (1 + 1 + 1) 12 :=
  C5_add_selection_amended.2.2 12 1 1 1 [⟨1, 0⟩, ⟨2, 5⟩, ⟨3, 0⟩, ⟨4, 0⟩]
    [1] [1, 3, 4] [3] [⟨4, 0⟩] (by decide) (by decide) (by decide) (by decide)

end Fuzztruction
